import Mathlib

/-!
Shallow embedding of the lettabot WebSocket gateway core:
`src/api/agent-session-manager.ts` (AgentSessionManager) and
`src/api/ws-gateway.ts` (WsGateway message handling).

The backend SDK session handle is external; its behaviour during one
operation is passed in explicitly (`InitBehavior`, `TurnBehavior`,
`closeThrows`, `abortThrows`).  The manager's mutable `Map` of sessions is
an association list with unique keys; each public method of the manager is
a pure state-transformer mirroring the TypeScript body line by line.
-/

namespace Lettabot

/-- Lifecycle state of a managed session (`SessionState` in the source). -/
inductive SessionState
  | initializing
  | ready
  | busy
  | error
  | closed
  deriving DecidableEq, Repr

/-- The SDK init message (`SDKInitMessage`): fields the gateway reads. -/
structure InitMsg where
  agentId : String
  conversationId : String
  sessionId : String
  deriving DecidableEq, Repr

/-- Stream events produced by the SDK session (`SDKMessage`), restricted to
the typed events the gateway's `forwardStreamEvent` switch handles. -/
inductive SDKMessage
  | assistant (content : String) (uuid : String)
  | toolCall (toolName : String) (toolCallId : String) (uuid : String)
  | toolResult (content : String) (toolCallId : String) (isError : Bool) (uuid : String)
  | reasoning (content : String) (uuid : String)
  | result (success : Bool) (conversationId : Option String) (durationMs : Nat)
      (error : Option String)
  deriving DecidableEq, Repr

/-- `msg.type === 'result'` check used by the send loop. -/
def SDKMessage.isResult : SDKMessage → Bool
  | .result _ _ _ _ => true
  | _ => false

/-- Tracked session wrapper (`ManagedSession`).  The opaque `session` handle
is represented by a numeric identity `handleId` so that close/abort calls on
it can be traced. -/
structure ManagedSession where
  handleId : Nat
  agentId : String
  conversationId : Option String
  state : SessionState
  lastActivity : Nat
  initMessage : Option InitMsg
  deriving DecidableEq, Repr

/-- State of one `AgentSessionManager` instance.  `closedHandles` and
`abortCalls` record, in order, the handles on which `session.close()` /
`session.abort()` were invoked (the calls themselves are external).
`nextHandle` is a fresh-name supply for `createSession`/`resumeSession`. -/
structure ManagerState where
  sessions : List (String × ManagedSession)
  closedHandles : List Nat
  abortCalls : List Nat
  sweepTimerOn : Bool
  idleTimeoutMs : Nat
  nextHandle : Nat
  deriving DecidableEq, Repr

def DEFAULT_IDLE_TIMEOUT_MS : Nat := 5 * 60 * 1000

def DEFAULT_SWEEP_INTERVAL_MS : Nat := 60 * 1000

def INIT_TIMEOUT_MS : Nat := 30000

/-- A freshly constructed manager: empty map, sweep timer started. -/
def ManagerState.initial (idleTimeoutMs : Nat) : ManagerState :=
  { sessions := []
    closedHandles := []
    abortCalls := []
    sweepTimerOn := true
    idleTimeoutMs := idleTimeoutMs
    nextHandle := 0 }

/-! Association-list primitives standing for the JS `Map` operations. -/

/-- `Map.get`. -/
def lookupS : List (String × ManagedSession) → String → Option ManagedSession
  | [], _ => none
  | (k, v) :: rest, id => if k = id then some v else lookupS rest id

/-- `Map.delete`. -/
def removeS : List (String × ManagedSession) → String → List (String × ManagedSession)
  | [], _ => []
  | (k, v) :: rest, id =>
      if k = id then removeS rest id else (k, v) :: removeS rest id

/-- `Map.set`: replace in place when the key exists, else append. -/
def setS : List (String × ManagedSession) → String → ManagedSession →
    List (String × ManagedSession)
  | [], id, v => [(id, v)]
  | (k, w) :: rest, id, v =>
      if k = id then (id, v) :: rest else (k, w) :: setS rest id v

/-- `has(connectionId)`. -/
def hasSession (st : ManagerState) (connId : String) : Bool :=
  (lookupS st.sessions connId).isSome

/-- `getInfo(connectionId)`: snapshot of agent id, conversation id, state. -/
def getInfo (st : ManagerState) (connId : String) :
    Option (String × Option String × SessionState) :=
  match lookupS st.sessions connId with
  | none => none
  | some m => some (m.agentId, m.conversationId, m.state)

/-- `size` getter. -/
def managerSize (st : ManagerState) : Nat :=
  st.sessions.length

/-! The external handle's best-effort calls.  `closeThrows h` / `abortThrows h`
says whether `session.close()` / `session.abort()` on handle `h` throws. -/

def closeHandle (closeThrows : Nat → Bool) (h : Nat) : Except String Unit :=
  if closeThrows h then .error "close failed" else .ok ()

def abortHandle (abortThrows : Nat → Bool) (h : Nat) : Except String Unit :=
  if abortThrows h then .error "abort failed" else .ok ()

/-- `close(connectionId)`: idempotent; marks the record closed, best-effort
closes the handle (`try { managed.session.close(); } catch { /* swallow */ }`),
and deletes the record — all without a suspension point, so the method can
never throw whatever the handle does. -/
def closeSession (closeThrows : Nat → Bool) (st : ManagerState) (connId : String) :
    ManagerState :=
  match lookupS st.sessions connId with
  | none => st
  | some m =>
      let st1 := { st with closedHandles := st.closedHandles ++ [m.handleId] }
      match closeHandle closeThrows m.handleId with
      | .ok _ => { st1 with sessions := removeS st1.sessions connId }
      | .error _ => { st1 with sessions := removeS st1.sessions connId }

/-- `abort(connectionId)`: no-op unless the record exists and is `busy`;
best-effort `session.abort()` whose failure is swallowed, then state is reset
to `ready` unconditionally. -/
def abortSession (abortThrows : Nat → Bool) (st : ManagerState) (connId : String) :
    ManagerState :=
  match lookupS st.sessions connId with
  | none => st
  | some m =>
      if m.state = .busy then
        let st1 := { st with abortCalls := st.abortCalls ++ [m.handleId] }
        match abortHandle abortThrows m.handleId with
        | .ok _ =>
            { st1 with sessions := setS st1.sessions connId { m with state := .ready } }
        | .error _ =>
            { st1 with sessions := setS st1.sessions connId { m with state := .ready } }
      else st

/-- How the external `session.initialize()` promise behaves for one `open`. -/
inductive InitBehavior
  | succeeds (msg : InitMsg)
  | fails (e : String)
  | timesOut
  deriving DecidableEq, Repr

/-- `withTimeout(promise, ms)`: races the promise against a timer; a timeout
rejects with the `Timed out after <ms>ms` error. -/
def withTimeout (ms : Nat) (b : InitBehavior) : Except String InitMsg :=
  match b with
  | .succeeds msg => .ok msg
  | .fails e => .error e
  | .timesOut => .error ("Timed out after " ++ toString ms ++ "ms")

/-- Result of `open`: the returned/raised value, the final value of the local
`managed` record, and the manager state afterwards. -/
structure OpenResult where
  result : Except String InitMsg
  record : ManagedSession
  st : ManagerState
  deriving Repr

/-- `open(connectionId, agentId, conversationId?)`.  Closes any existing
record first, creates a fresh handle (`resumeSession` when `conversationId`
is given, else `createSession` — both yield a fresh subprocess), stores an
`initializing` record, then awaits `initialize` under the 30s timeout.
`now` is `Date.now()` at record creation, `now2` at init completion. -/
def openSession (closeThrows : Nat → Bool) (st : ManagerState)
    (connId : String) (agentId : String) (conversationId : Option String)
    (now now2 : Nat) (init : InitBehavior) : OpenResult :=
  let st0 := closeSession closeThrows st connId
  let handleId := st0.nextHandle
  let managed : ManagedSession :=
    { handleId := handleId
      agentId := agentId
      conversationId := none
      state := .initializing
      lastActivity := now
      initMessage := none }
  let st1 := { st0 with
    sessions := setS st0.sessions connId managed
    nextHandle := st0.nextHandle + 1 }
  match withTimeout INIT_TIMEOUT_MS init with
  | .ok initMsg =>
      let managed2 := { managed with
        state := .ready
        conversationId := some initMsg.conversationId
        initMessage := some initMsg
        lastActivity := now2 }
      { result := .ok initMsg
        record := managed2
        st := { st1 with sessions := setS st1.sessions connId managed2 } }
  | .error e =>
      let managed2 := { managed with state := .error }
      let st2 := { st1 with closedHandles := st1.closedHandles ++ [handleId] }
      let st3 :=
        match closeHandle closeThrows handleId with
        | .ok _ => { st2 with sessions := removeS st2.sessions connId }
        | .error _ => { st2 with sessions := removeS st2.sessions connId }
      { result := .error e
        record := managed2
        st := st3 }

/-- One step of the backend event stream: the time `Date.now()` returns when
the event arrives, and either an event or a throw (`item = none`). -/
structure StreamStep where
  time : Nat
  item : Option SDKMessage
  deriving DecidableEq, Repr

/-- Backend behaviour for one turn: whether `session.send` rejects, and the
steps `session.stream()` would produce if iterated to the end. -/
structure TurnBehavior where
  sendFails : Bool
  steps : List StreamStep
  deriving DecidableEq, Repr

/-- The typed failures `sendAndStream` can raise. -/
inductive SendErr
  | noSession
  | sessionBusy
  | sessionNotReady (s : SessionState)
  | backendErr
  deriving DecidableEq, Repr

/-- `String(err)` for the errors surfaced through the gateway's catch. -/
def SendErr.message : SendErr → String
  | .noSession => "Error: No session for connection"
  | .sessionBusy => "Session is busy processing another request"
  | .sessionNotReady _ => "Error: Session not ready"
  | .backendErr => "Error: stream failed"

/-- Outcome of `sendAndStream`: events yielded to the caller, the raised
error if any, how many times `session.send` was invoked, the final value of
the record (when one existed), and the manager state afterwards. -/
structure SendOutcome where
  yielded : List SDKMessage
  error : Option SendErr
  sendCalls : Nat
  record : Option ManagedSession
  st : ManagerState
  deriving Repr

/-- The `for await (const msg of managed.session.stream())` loop body:
update `lastActivity`, yield the event, break after the first `result`;
a throw is caught by the surrounding try, setting state to `error`.
Returns (yielded events, final record, whether the loop threw). -/
def streamLoop (m : ManagedSession) : List StreamStep →
    List SDKMessage × ManagedSession × Bool
  | [] => ([], { m with state := .ready }, false)
  | step :: rest =>
      match step.item with
      | none => ([], { m with state := .error }, true)
      | some msg =>
          let m1 := { m with lastActivity := step.time }
          if msg.isResult then
            ([msg], { m1 with state := .ready }, false)
          else
            match streamLoop m1 rest with
            | (ys, mf, err) => (msg :: ys, mf, err)

/-- `sendAndStream(connectionId, message)`: guards (`NoSession`,
`SessionBusy`, not-`ready`), then transitions to `busy`, sends, and streams
events until the first `result` event or the stream's end; any throw during
send or streaming moves the record to `error` and propagates. -/
def sendAndStream (st : ManagerState) (connId : String) (now : Nat)
    (turn : TurnBehavior) : SendOutcome :=
  match lookupS st.sessions connId with
  | none =>
      { yielded := [], error := some .noSession, sendCalls := 0, record := none, st := st }
  | some m =>
      if m.state = .busy then
        { yielded := [], error := some .sessionBusy, sendCalls := 0
          record := some m, st := st }
      else if m.state ≠ .ready then
        { yielded := [], error := some (.sessionNotReady m.state), sendCalls := 0
          record := some m, st := st }
      else
        let m1 := { m with state := .busy, lastActivity := now }
        if turn.sendFails then
          let m2 := { m1 with state := .error }
          { yielded := [], error := some .backendErr, sendCalls := 1
            record := some m2
            st := { st with sessions := setS st.sessions connId m2 } }
        else
          match streamLoop m1 turn.steps with
          | (ys, mf, errored) =>
              { yielded := ys
                error := if errored then some .backendErr else none
                sendCalls := 1
                record := some mf
                st := { st with sessions := setS st.sessions connId mf } }

/-- `sweepIdle` eviction test: a `busy` record is never evicted; otherwise
evict exactly when `now - lastActivity > idleTimeoutMs`. -/
def sweepEvicts (idleTimeoutMs now : Nat) (m : ManagedSession) : Bool :=
  if m.state = .busy then false
  else decide (now - m.lastActivity > idleTimeoutMs)

/-- One pass of the idle sweep: close the handle of, and delete, every
evictable record. -/
def sweepIdle (st : ManagerState) (now : Nat) : ManagerState :=
  { st with
    sessions :=
      st.sessions.filter (fun p => !sweepEvicts st.idleTimeoutMs now p.2)
    closedHandles := st.closedHandles ++
      ((st.sessions.filter (fun p => sweepEvicts st.idleTimeoutMs now p.2)).map
        (fun p => p.2.handleId)) }

/-- `shutdown()`: stop the sweep timer, then close every session; the closes
run under `Promise.allSettled`, so individual failures are collected and
never propagated. -/
def shutdown (closeThrows : Nat → Bool) (st : ManagerState) : ManagerState :=
  let st1 := { st with sweepTimerOn := false }
  (st1.sessions.map Prod.fst).foldl (fun s id => closeSession closeThrows s id) st1

/-! ### WsGateway outbound frames (`ws-gateway.ts`) -/

/-- Outbound protocol frames the gateway serializes to one client. -/
inductive Frame
  | sessionInit (agentId : String) (conversationId : String) (sessionId : String)
  | streamAssistant (content : String) (uuid : String) (requestId : Option String)
  | streamToolCall (toolName : String) (toolCallId : String) (uuid : String)
      (requestId : Option String)
  | streamToolResult (content : String) (toolCallId : String) (isError : Bool)
      (uuid : String) (requestId : Option String)
  | streamReasoning (content : String) (uuid : String) (requestId : Option String)
  | resultFrame (success : Bool) (conversationId : Option String)
      (requestId : Option String) (durationMs : Nat) (error : Option String)
  | errorFrame (code : String) (message : String) (requestId : Option String)
  deriving DecidableEq, Repr

/-- Is the frame one of the four `type: 'stream'` frames? -/
def Frame.isStream : Frame → Bool
  | .streamAssistant _ _ _ => true
  | .streamToolCall _ _ _ _ => true
  | .streamToolResult _ _ _ _ _ => true
  | .streamReasoning _ _ _ => true
  | _ => false

/-- Is the frame the `type: 'result'` turn-completion frame? -/
def Frame.isResultFrame : Frame → Bool
  | .resultFrame _ _ _ _ _ => true
  | _ => false

/-- The `request_id` field carried by the frame, when the frame has one. -/
def Frame.reqId : Frame → Option String
  | .sessionInit _ _ _ => none
  | .streamAssistant _ _ r => r
  | .streamToolCall _ _ _ r => r
  | .streamToolResult _ _ _ _ r => r
  | .streamReasoning _ _ r => r
  | .resultFrame _ _ r _ _ => r
  | .errorFrame _ _ r => r

/-- `sendError(ws, code, message, requestId)`: the `request_id` field is only
spread in when `requestId` is truthy (so an absent or empty id is omitted). -/
def sendError (code : String) (message : String) (requestId : Option String) : Frame :=
  .errorFrame code message (if requestId.getD "" = "" then none else requestId)

/-- `forwardStreamEvent(ws, connId, msg, requestId)`: translate one SDK
event to its wire frame.  For a `result` event the `conversation_id` falls
back to `getInfo(connId)?.conversationId` (which `sendAndStream` never
mutates mid-turn, so reading it from any snapshot of the record is the
same). -/
def forwardStreamEvent (st : ManagerState) (connId : String) (msg : SDKMessage)
    (requestId : Option String) : Frame :=
  match msg with
  | .assistant content uuid => .streamAssistant content uuid requestId
  | .toolCall toolName toolCallId uuid => .streamToolCall toolName toolCallId uuid requestId
  | .toolResult content toolCallId isError uuid =>
      .streamToolResult content toolCallId isError uuid requestId
  | .reasoning content uuid => .streamReasoning content uuid requestId
  | .result success conversationId durationMs err =>
      let infoConv : Option String :=
        match getInfo st connId with
        | none => none
        | some info => info.2.1
      .resultFrame success
        (match conversationId with
         | some c => some c
         | none => infoConv)
        requestId durationMs err

/-- Outcome of one inbound-frame handler: frames written to this client,
manager state afterwards, number of backend `send` calls made, and whether
the gateway closed the client's connection (it never does from these
handlers). -/
structure HandleOutcome where
  frames : List Frame
  st : ManagerState
  sendCalls : Nat
  connectionClosed : Bool
  deriving Repr

/-- `handleClientMessage(ws, connId, msg)`: `NO_SESSION` before any session,
`BAD_MESSAGE` on missing content, otherwise iterate `sendAndStream`
forwarding every event; a `SessionBusyError` maps to `SESSION_BUSY` and any
other failure to `STREAM_ERROR`. -/
def handleClientMessage (st : ManagerState) (connId : String) (content : String)
    (requestId : Option String) (now : Nat) (turn : TurnBehavior) : HandleOutcome :=
  if ¬ hasSession st connId then
    { frames := [sendError "NO_SESSION" "Send session_start first" requestId]
      st := st, sendCalls := 0, connectionClosed := false }
  else if content = "" then
    { frames := [sendError "BAD_MESSAGE" "Missing content" requestId]
      st := st, sendCalls := 0, connectionClosed := false }
  else
    let o := sendAndStream st connId now turn
    let fwd := o.yielded.map (fun m => forwardStreamEvent o.st connId m requestId)
    match o.error with
    | none =>
        { frames := fwd, st := o.st, sendCalls := o.sendCalls, connectionClosed := false }
    | some SendErr.sessionBusy =>
        { frames := fwd ++ [sendError "SESSION_BUSY" SendErr.sessionBusy.message requestId]
          st := o.st, sendCalls := o.sendCalls, connectionClosed := false }
    | some e =>
        { frames := fwd ++ [sendError "STREAM_ERROR" e.message requestId]
          st := o.st, sendCalls := o.sendCalls, connectionClosed := false }

/-- `handleSessionStart(ws, connId, msg)`: `BAD_MESSAGE` on a falsy
`agent_id`; otherwise `open` and reply `session_init` on success or a
`SESSION_INIT_FAILED` error (no `request_id` on this path) on failure. -/
def handleSessionStart (closeThrows : Nat → Bool) (st : ManagerState)
    (connId : String) (agentId : String) (conversationId : Option String)
    (now now2 : Nat) (init : InitBehavior) : HandleOutcome :=
  if agentId = "" then
    { frames := [sendError "BAD_MESSAGE" "Missing agent_id" none]
      st := st, sendCalls := 0, connectionClosed := false }
  else
    let o := openSession closeThrows st connId agentId conversationId now now2 init
    match o.result with
    | .ok initMsg =>
        { frames := [.sessionInit initMsg.agentId initMsg.conversationId initMsg.sessionId]
          st := o.st, sendCalls := 0, connectionClosed := false }
    | .error e =>
        { frames := [sendError "SESSION_INIT_FAILED" ("Error: " ++ e) none]
          st := o.st, sendCalls := 0, connectionClosed := false }

/-! ### Derived notions used by the specification statements -/

/-- Number of records stored under one connection id. -/
def countKey (l : List (String × ManagedSession)) (c : String) : Nat :=
  (l.filter (fun p => p.1 == c)).length

/-- Spec-side comparator: the prefix of an event list up to and including
its first `result` event (the whole list when none occurs). -/
def eventsUpToFirstResult : List SDKMessage → List SDKMessage
  | [] => []
  | e :: rest => if e.isResult then [e] else e :: eventsUpToFirstResult rest

/-- The events of a stream-step list, throws dropped. -/
def stepsItems (steps : List StreamStep) : List SDKMessage :=
  steps.filterMap (fun s => s.item)

/-- Does iterating the stream hit a throw before the first `result` event
(i.e. before the consumer would break out of the loop)? -/
def streamHasThrow : List StreamStep → Bool
  | [] => false
  | s :: rest =>
      match s.item with
      | none => true
      | some msg => if msg.isResult then false else streamHasThrow rest

/-- Does the stream deliver a `result` event before any throw? -/
def streamHasResult : List StreamStep → Bool
  | [] => false
  | s :: rest =>
      match s.item with
      | none => false
      | some msg => msg.isResult || streamHasResult rest

/-- Arrival time of the first `result` event of the stream (default `d` when
there is none before a throw or the end). -/
def firstResultTime (d : Nat) : List StreamStep → Nat
  | [] => d
  | s :: rest =>
      match s.item with
      | none => d
      | some msg => if msg.isResult then s.time else firstResultTime d rest

/-- Every manager entry point, as a step relation on manager states. -/
inductive Step : ManagerState → ManagerState → Prop
  | doOpen (st : ManagerState) (ct : Nat → Bool) (c a : String) (cv : Option String)
      (t1 t2 : Nat) (init : InitBehavior) :
      Step st (openSession ct st c a cv t1 t2 init).st
  | doSend (st : ManagerState) (c : String) (now : Nat) (turn : TurnBehavior) :
      Step st (sendAndStream st c now turn).st
  | doAbort (st : ManagerState) (ab : Nat → Bool) (c : String) :
      Step st (abortSession ab st c)
  | doClose (st : ManagerState) (ct : Nat → Bool) (c : String) :
      Step st (closeSession ct st c)
  | doSweep (st : ManagerState) (now : Nat) :
      Step st (sweepIdle st now)
  | doShutdown (st : ManagerState) (ct : Nat → Bool) :
      Step st (shutdown ct st)

/-- States a manager can be in after any sequence of operations from a
fresh instance. -/
inductive Reachable : ManagerState → Prop
  | start (idle : Nat) : Reachable (ManagerState.initial idle)
  | step {s s' : ManagerState} : Reachable s → Step s s' → Reachable s'

/-- Invariant: no record stored in the map is in the terminal `closed`
state. -/
def NoClosed (st : ManagerState) : Prop :=
  ∀ p ∈ st.sessions, p.2.state ≠ SessionState.closed

/-- Invariant: the session map holds at most one record per connection id. -/
def NodupKeys (st : ManagerState) : Prop :=
  (st.sessions.map Prod.fst).Nodup

/-! ### Concrete fixtures used by the witness theorems -/

def mBusy : ManagedSession :=
  { handleId := 0, agentId := "a1", conversationId := some "v1"
    state := .busy, lastActivity := 0, initMessage := none }

def mReady : ManagedSession :=
  { handleId := 1, agentId := "a2", conversationId := some "v2"
    state := .ready, lastActivity := 0, initMessage := none }

def stBusy : ManagerState :=
  { sessions := [("c1", mBusy)], closedHandles := [], abortCalls := []
    sweepTimerOn := true, idleTimeoutMs := DEFAULT_IDLE_TIMEOUT_MS, nextHandle := 1 }

def stReady : ManagerState :=
  { sessions := [("c2", mReady)], closedHandles := [], abortCalls := []
    sweepTimerOn := true, idleTimeoutMs := 5, nextHandle := 2 }

/-- A two-event backend turn: one assistant event then the terminal result. -/
def turnOk : TurnBehavior :=
  { sendFails := false
    steps :=
      [ { time := 10, item := some (.assistant "hello" "u1") }
      , { time := 20, item := some (.result true (some "v2") 5 none) } ] }

/-- A turn whose stream throws after one assistant event. -/
def turnThrows : TurnBehavior :=
  { sendFails := false
    steps :=
      [ { time := 10, item := some (.assistant "hello" "u1") }
      , { time := 20, item := none } ] }

/-- Two live sessions at once, for the shutdown witness. -/
def stTwo : ManagerState :=
  { sessions := [("c1", mBusy), ("c2", mReady)], closedHandles := [], abortCalls := []
    sweepTimerOn := true, idleTimeoutMs := DEFAULT_IDLE_TIMEOUT_MS, nextHandle := 2 }

/-- The manager state after one successful `open` on a fresh instance. -/
def stOpened : ManagerState :=
  (openSession (fun _ => false) (ManagerState.initial 300000) "c1" "a1" none 0 0
    (.succeeds { agentId := "a1", conversationId := "v1", sessionId := "s1" })).st

/-! ### Association-list lemmas -/

theorem lookupS_setS_self (l : List (String × ManagedSession)) (id : String)
    (v : ManagedSession) : lookupS (setS l id v) id = some v := by
  induction l with
  | nil => simp [setS, lookupS]
  | cons p rest ih =>
      by_cases h : p.1 = id
      · simp [setS, h, lookupS]
      · simpa [setS, h, lookupS] using ih

theorem lookupS_setS_ne (l : List (String × ManagedSession)) (id c : String)
    (v : ManagedSession) (h : c ≠ id) :
    lookupS (setS l id v) c = lookupS l c := by
  have hid : id ≠ c := Ne.symm h
  induction l with
  | nil => simp [setS, lookupS, hid]
  | cons p rest ih =>
      by_cases hk : p.1 = id
      · simp [setS, hk, lookupS, hid]
      · simp [setS, hk, lookupS, ih]

theorem setS_setS (l : List (String × ManagedSession)) (id : String)
    (v w : ManagedSession) : setS (setS l id v) id w = setS l id w := by
  induction l with
  | nil => simp [setS]
  | cons p rest ih =>
      by_cases h : p.1 = id
      · simp [setS, h]
      · simp [setS, h, ih]

theorem mem_setS (l : List (String × ManagedSession)) (id : String)
    (v : ManagedSession) (p : String × ManagedSession) (hp : p ∈ setS l id v) :
    p = (id, v) ∨ p ∈ l := by
  induction l with
  | nil => simpa [setS] using hp
  | cons q rest ih =>
      by_cases h : q.1 = id
      · simp only [setS, h, if_pos] at hp
        rcases List.mem_cons.mp hp with h1 | h1
        · exact Or.inl h1
        · exact Or.inr (List.mem_cons_of_mem _ h1)
      · simp only [setS, h, if_neg, not_false_iff] at hp
        rcases List.mem_cons.mp hp with h1 | h1
        · exact Or.inr (h1 ▸ List.mem_cons_self _ _)
        · rcases ih h1 with h2 | h2
          · exact Or.inl h2
          · exact Or.inr (List.mem_cons_of_mem _ h2)

theorem keys_setS (l : List (String × ManagedSession)) (id : String)
    (v : ManagedSession) (x : String) (hx : x ∈ (setS l id v).map Prod.fst) :
    x = id ∨ x ∈ l.map Prod.fst := by
  rcases List.mem_map.mp hx with ⟨p, hp, hpx⟩
  rcases mem_setS l id v p hp with h | h
  · exact Or.inl (by rw [← hpx, h])
  · exact Or.inr (hpx ▸ List.mem_map_of_mem Prod.fst h)

theorem nodup_keys_setS (l : List (String × ManagedSession)) (id : String)
    (v : ManagedSession) (h : (l.map Prod.fst).Nodup) :
    ((setS l id v).map Prod.fst).Nodup := by
  induction l with
  | nil => simp [setS]
  | cons p rest ih =>
      rw [List.map_cons, List.nodup_cons] at h
      by_cases hk : p.1 = id
      · simp only [setS, hk, if_pos, List.map_cons, List.nodup_cons]
        exact ⟨hk ▸ h.1, h.2⟩
      · simp only [setS, hk, if_neg, not_false_iff, List.map_cons, List.nodup_cons]
        refine ⟨fun hmem => ?_, ih h.2⟩
        rcases keys_setS rest id v p.1 hmem with h1 | h1
        · exact hk h1
        · exact h.1 h1

theorem removeS_eq_filter (l : List (String × ManagedSession)) (id : String) :
    removeS l id = l.filter (fun p => p.1 != id) := by
  induction l with
  | nil => rfl
  | cons p rest ih =>
      by_cases h : p.1 = id
      · simp [removeS, h, ih, List.filter_cons]
      · simp [removeS, h, ih, List.filter_cons, bne_iff_ne]

theorem removeS_setS (l : List (String × ManagedSession)) (id : String)
    (v : ManagedSession) : removeS (setS l id v) id = removeS l id := by
  induction l with
  | nil => simp [setS, removeS]
  | cons p rest ih =>
      by_cases h : p.1 = id
      · simp [setS, h, removeS]
      · simp [setS, h, removeS, ih]

theorem lookupS_eq_none_iff (l : List (String × ManagedSession)) (c : String) :
    lookupS l c = none ↔ ∀ p ∈ l, p.1 ≠ c := by
  induction l with
  | nil => simp [lookupS]
  | cons p rest ih =>
      by_cases h : p.1 = c
      · simp [lookupS, h]
      · simp [lookupS, h, ih]

theorem lookupS_removeS_self (l : List (String × ManagedSession)) (id : String) :
    lookupS (removeS l id) id = none := by
  rw [removeS_eq_filter, lookupS_eq_none_iff]
  intro p hp
  have := (List.mem_filter.mp hp).2
  simpa [bne_iff_ne] using this

theorem lookupS_mem (l : List (String × ManagedSession)) (c : String)
    (m : ManagedSession) (h : lookupS l c = some m) : (c, m) ∈ l := by
  induction l with
  | nil => simp [lookupS] at h
  | cons p rest ih =>
      by_cases hk : p.1 = c
      · simp only [lookupS, hk, if_pos] at h
        cases h
        rw [← hk]
        simp
      · simp only [lookupS, hk, if_neg, not_false_iff] at h
        exact List.mem_cons_of_mem _ (ih h)

theorem lookupS_of_mem_nodup (l : List (String × ManagedSession)) (c : String)
    (m : ManagedSession) (hmem : (c, m) ∈ l) (hnodup : (l.map Prod.fst).Nodup) :
    lookupS l c = some m := by
  induction l with
  | nil => cases hmem
  | cons p rest ih =>
      rw [List.map_cons, List.nodup_cons] at hnodup
      rcases List.mem_cons.mp hmem with h | h
      · rw [← h]
        simp [lookupS]
      · have hk : p.1 ≠ c := by
          intro he
          exact hnodup.1 (he ▸ List.mem_map_of_mem Prod.fst h)
        simp only [lookupS, hk, if_neg, not_false_iff]
        exact ih h hnodup.2

theorem setS_eq_append_of_none (l : List (String × ManagedSession)) (c : String)
    (v : ManagedSession) (h : lookupS l c = none) : setS l c v = l ++ [(c, v)] := by
  induction l with
  | nil => simp [setS]
  | cons p rest ih =>
      rw [lookupS_eq_none_iff] at h
      have hk : p.1 ≠ c := h p (List.mem_cons_self _ _)
      have hrest : lookupS rest c = none := by
        rw [lookupS_eq_none_iff]
        exact fun q hq => h q (List.mem_cons_of_mem _ hq)
      simp [setS, hk, ih hrest]

theorem countKey_eq_zero_of_none (l : List (String × ManagedSession)) (c : String)
    (h : lookupS l c = none) : countKey l c = 0 := by
  rw [lookupS_eq_none_iff] at h
  simp only [countKey, List.length_eq_zero, List.filter_eq_nil_iff]
  intro p hp
  simpa using h p hp

theorem countKey_le_one_of_nodup (l : List (String × ManagedSession)) (c : String)
    (h : (l.map Prod.fst).Nodup) : countKey l c ≤ 1 := by
  induction l with
  | nil => simp [countKey]
  | cons p rest ih =>
      rw [List.map_cons, List.nodup_cons] at h
      by_cases hk : p.1 = c
      · have hz : (rest.filter (fun p => p.1 == c)).length = 0 := by
          simp only [List.length_eq_zero, List.filter_eq_nil_iff]
          intro q hq hqc
          apply h.1
          have hqc2 : q.1 = c := by simpa using hqc
          rw [hk, ← hqc2]
          exact List.mem_map_of_mem Prod.fst hq
        simp [countKey, List.filter_cons, hk, hz]
      · simpa [countKey, List.filter_cons, hk] using ih h.2

/-! ### `closeSession` characterization -/

theorem closeSession_sessions (ct : Nat → Bool) (st : ManagerState) (id : String) :
    (closeSession ct st id).sessions = st.sessions.filter (fun p => p.1 != id) := by
  cases hl : lookupS st.sessions id with
  | none =>
      have hfix : st.sessions.filter (fun p => p.1 != id) = st.sessions := by
        rw [List.filter_eq_self]
        intro p hp
        rw [lookupS_eq_none_iff] at hl
        simpa [bne_iff_ne] using hl p hp
      simp [closeSession, hl, hfix]
  | some m =>
      cases h2 : closeHandle ct m.handleId <;>
        simp [closeSession, hl, h2, removeS_eq_filter]

theorem closeSession_sweepTimerOn (ct : Nat → Bool) (st : ManagerState) (id : String) :
    (closeSession ct st id).sweepTimerOn = st.sweepTimerOn := by
  cases hl : lookupS st.sessions id with
  | none => simp [closeSession, hl]
  | some m => cases h2 : closeHandle ct m.handleId <;> simp [closeSession, hl, h2]

theorem closeSession_idleTimeoutMs (ct : Nat → Bool) (st : ManagerState) (id : String) :
    (closeSession ct st id).idleTimeoutMs = st.idleTimeoutMs := by
  cases hl : lookupS st.sessions id with
  | none => simp [closeSession, hl]
  | some m => cases h2 : closeHandle ct m.handleId <;> simp [closeSession, hl, h2]

theorem closeSession_nextHandle (ct : Nat → Bool) (st : ManagerState) (id : String) :
    (closeSession ct st id).nextHandle = st.nextHandle := by
  cases hl : lookupS st.sessions id with
  | none => simp [closeSession, hl]
  | some m => cases h2 : closeHandle ct m.handleId <;> simp [closeSession, hl, h2]

theorem closeSession_closedHandles_mono (ct : Nat → Bool) (st : ManagerState)
    (id : String) (x : Nat) (hx : x ∈ st.closedHandles) :
    x ∈ (closeSession ct st id).closedHandles := by
  cases hl : lookupS st.sessions id with
  | none => simpa [closeSession, hl] using hx
  | some m =>
      cases h2 : closeHandle ct m.handleId <;>
        simp only [closeSession, hl, h2, List.mem_append] <;> exact Or.inl hx

theorem closeSession_closes (ct : Nat → Bool) (st : ManagerState) (id : String)
    (m : ManagedSession) (hl : lookupS st.sessions id = some m) :
    m.handleId ∈ (closeSession ct st id).closedHandles := by
  cases h2 : closeHandle ct m.handleId <;> simp [closeSession, hl, h2]

/-! ### C1 -/

/-- C1: while a session's state is `busy`, `sendAndStream` fails with the
`SessionBusy` error with zero calls to the backend handle's `send`, no
events yielded, and the manager state (hence the record, still `busy`)
unchanged. -/
theorem sendAndStream_busy_rejected (st : ManagerState) (connId : String)
    (now : Nat) (turn : TurnBehavior) (m : ManagedSession)
    (hm : lookupS st.sessions connId = some m) (hb : m.state = .busy) :
    sendAndStream st connId now turn =
      { yielded := [], error := some .sessionBusy, sendCalls := 0
        record := some m, st := st } := by
  simp [sendAndStream, hm, hb]

/-- C1 witness: a concrete busy session rejects a send without touching
anything. -/
theorem sendAndStream_busy_rejected_witness :
    sendAndStream stBusy "c1" 7 { sendFails := false, steps := [] } =
      { yielded := [], error := some .sessionBusy, sendCalls := 0
        record := some mBusy, st := stBusy } :=
  sendAndStream_busy_rejected stBusy "c1" 7 { sendFails := false, steps := [] } mBusy
    (by decide) (by decide)

/-! ### C4 -/

/-- C4: `abort` on a `busy` session always leaves it `ready` (whatever the
handle's `abort` does, since its failure is swallowed); on a missing record
or one not in `busy` it is a no-op that changes nothing. -/
theorem abort_ready_or_noop (abortThrows : Nat → Bool) (st : ManagerState)
    (connId : String) :
    (∀ m, lookupS st.sessions connId = some m → m.state = .busy →
      lookupS (abortSession abortThrows st connId).sessions connId =
        some { m with state := .ready }) ∧
    (∀ m, lookupS st.sessions connId = some m → m.state ≠ .busy →
      abortSession abortThrows st connId = st) ∧
    (lookupS st.sessions connId = none → abortSession abortThrows st connId = st) := by
  refine ⟨fun m hm hb => ?_, fun m hm hb => ?_, fun hm => ?_⟩
  · cases h2 : abortHandle abortThrows m.handleId <;>
      simp [abortSession, hm, hb, h2, lookupS_setS_self]
  · simp [abortSession, hm, hb]
  · simp [abortSession, hm]

/-- C4 witness: aborting a busy session whose handle's abort throws still
ends in `ready`, and aborting an absent connection is a no-op. -/
theorem abort_ready_or_noop_witness :
    lookupS (abortSession (fun _ => true) stBusy "c1").sessions "c1" =
        some { mBusy with state := .ready } ∧
    abortSession (fun _ => true) stBusy "nope" = stBusy :=
  ⟨(abort_ready_or_noop (fun _ => true) stBusy "c1").1 mBusy (by decide) (by decide),
   (abort_ready_or_noop (fun _ => true) stBusy "nope").2.2 (by decide)⟩

/-! ### C3 -/

/-- C3: one idle-sweep pass never removes a `busy` record however old its
activity stamp is, and removes a non-`busy` record (closing its handle)
exactly when `now - lastActivity` strictly exceeds the idle timeout, leaving
a record at or under the timeout untouched. -/
theorem sweepIdle_spec (st : ManagerState) (now : Nat) :
    (∀ p ∈ st.sessions, p.2.state = .busy → p ∈ (sweepIdle st now).sessions) ∧
    (∀ p ∈ st.sessions, p.2.state ≠ .busy →
      (now - p.2.lastActivity > st.idleTimeoutMs →
        p ∉ (sweepIdle st now).sessions ∧
        p.2.handleId ∈ (sweepIdle st now).closedHandles) ∧
      (now - p.2.lastActivity ≤ st.idleTimeoutMs →
        p ∈ (sweepIdle st now).sessions)) := by
  constructor
  · intro p hp hb
    simp only [sweepIdle]
    exact List.mem_filter.mpr ⟨hp, by simp [sweepEvicts, hb]⟩
  · intro p hp hb
    constructor
    · intro hgt
      have hev : sweepEvicts st.idleTimeoutMs now p.2 = true := by
        simp [sweepEvicts, hb, hgt]
      constructor
      · intro hmem
        simp only [sweepIdle] at hmem
        have := (List.mem_filter.mp hmem).2
        simp [hev] at this
      · simp only [sweepIdle, List.mem_append]
        right
        exact List.mem_map_of_mem _ (List.mem_filter.mpr ⟨hp, hev⟩)
    · intro hle
      have hev : sweepEvicts st.idleTimeoutMs now p.2 = false := by
        simp only [sweepEvicts, hb, if_neg, not_false_iff]
        simpa [decide_eq_false_iff_not] using Nat.not_lt.mpr hle
      simp only [sweepIdle]
      exact List.mem_filter.mpr ⟨hp, by simp [hev]⟩

/-- C3 witness: with a 5ms timeout, a `ready` record idle for 6ms is evicted
and its handle closed, while one idle for exactly 5ms survives; a `busy`
record idle for 1000000ms survives. -/
theorem sweepIdle_spec_witness :
    (("c2", mReady) ∉ (sweepIdle stReady 6).sessions ∧
      mReady.handleId ∈ (sweepIdle stReady 6).closedHandles) ∧
    ("c2", mReady) ∈ (sweepIdle stReady 5).sessions ∧
    ("c1", mBusy) ∈ (sweepIdle stBusy 1000000).sessions :=
  ⟨((sweepIdle_spec stReady 6).2 ("c2", mReady) (by decide) (by decide)).1 (by decide),
   ((sweepIdle_spec stReady 5).2 ("c2", mReady) (by decide) (by decide)).2 (by decide),
   (sweepIdle_spec stBusy 1000000).1 ("c1", mBusy) (by decide) (by decide)⟩

/-! ### `openSession` characterization -/

theorem openSession_ok (ct : Nat → Bool) (st : ManagerState) (c a : String)
    (cv : Option String) (t1 t2 : Nat) (msg : InitMsg) :
    openSession ct st c a cv t1 t2 (.succeeds msg) =
      { result := .ok msg
        record :=
          { handleId := (closeSession ct st c).nextHandle, agentId := a
            conversationId := some msg.conversationId, state := .ready
            lastActivity := t2, initMessage := some msg }
        st := { closeSession ct st c with
                  sessions := setS (closeSession ct st c).sessions c
                    { handleId := (closeSession ct st c).nextHandle, agentId := a
                      conversationId := some msg.conversationId, state := .ready
                      lastActivity := t2, initMessage := some msg }
                  nextHandle := (closeSession ct st c).nextHandle + 1 } } := by
  simp [openSession, withTimeout, setS_setS]

theorem openSession_err (ct : Nat → Bool) (st : ManagerState) (c a : String)
    (cv : Option String) (t1 t2 : Nat) (init : InitBehavior) (e : String)
    (he : withTimeout INIT_TIMEOUT_MS init = .error e) :
    openSession ct st c a cv t1 t2 init =
      { result := .error e
        record :=
          { handleId := (closeSession ct st c).nextHandle, agentId := a
            conversationId := none, state := .error
            lastActivity := t1, initMessage := none }
        st := { closeSession ct st c with
                  sessions := removeS (closeSession ct st c).sessions c
                  nextHandle := (closeSession ct st c).nextHandle + 1
                  closedHandles := (closeSession ct st c).closedHandles ++
                    [(closeSession ct st c).nextHandle] } } := by
  cases h2 : closeHandle ct (closeSession ct st c).nextHandle <;>
    simp [openSession, he, h2, removeS_setS]

/-! ### Shapes of the session map after each operation -/

theorem streamLoop_state (m : ManagedSession) (steps : List StreamStep) :
    (streamLoop m steps).2.1.state = .ready ∨
    (streamLoop m steps).2.1.state = .error := by
  induction steps generalizing m with
  | nil => simp [streamLoop]
  | cons s rest ih =>
      cases hi : s.item with
      | none => simp [streamLoop, hi]
      | some msg =>
          by_cases hr : msg.isResult
          · simp [streamLoop, hi, hr]
          · simpa [streamLoop, hi, hr] using ih { m with lastActivity := s.time }

theorem sendAndStream_sessions_shape (st : ManagerState) (c : String) (now : Nat)
    (turn : TurnBehavior) :
    (sendAndStream st c now turn).st.sessions = st.sessions ∨
    ∃ m, (sendAndStream st c now turn).st.sessions = setS st.sessions c m ∧
      m.state ≠ SessionState.closed := by
  unfold sendAndStream
  cases hl : lookupS st.sessions c with
  | none => exact Or.inl rfl
  | some m =>
      by_cases hb : m.state = .busy
      · simp [hb]
      · by_cases hr : m.state = .ready
        · have hnr : ¬m.state ≠ SessionState.ready := by simp [hr]
          by_cases hs : turn.sendFails
          · refine Or.inr ⟨{ m with state := .error, lastActivity := now }, ?_, by simp⟩
            simp [hb, hnr, hs]
          · rcases hsl : streamLoop { m with state := .busy, lastActivity := now }
              turn.steps with ⟨ys, mf, er⟩
            refine Or.inr ⟨mf, ?_, ?_⟩
            · simp [hb, hnr, hs, hsl]
            · have := streamLoop_state { m with state := .busy, lastActivity := now }
                turn.steps
              rw [hsl] at this
              rcases this with h | h <;> simp_all
        · simp [hb, hr]

theorem abortSession_sessions_shape (ab : Nat → Bool) (st : ManagerState)
    (c : String) :
    (abortSession ab st c).sessions = st.sessions ∨
    ∃ m, (abortSession ab st c).sessions = setS st.sessions c m ∧
      m.state ≠ SessionState.closed := by
  unfold abortSession
  cases hl : lookupS st.sessions c with
  | none => exact Or.inl rfl
  | some m =>
      by_cases hb : m.state = .busy
      · cases h2 : abortHandle ab m.handleId <;>
          · refine Or.inr ⟨{ m with state := .ready }, ?_, by simp⟩
            simp [hb, h2]
      · simp [hb]

theorem openSession_sessions_shape (ct : Nat → Bool) (st : ManagerState)
    (c a : String) (cv : Option String) (t1 t2 : Nat) (init : InitBehavior) :
    (∃ m, (openSession ct st c a cv t1 t2 init).st.sessions =
        setS (st.sessions.filter (fun p => p.1 != c)) c m ∧
        m.state ≠ SessionState.closed) ∨
    (openSession ct st c a cv t1 t2 init).st.sessions =
      (st.sessions.filter (fun p => p.1 != c)).filter (fun p => p.1 != c) := by
  cases init with
  | succeeds msg =>
      left
      refine ⟨{ handleId := (closeSession ct st c).nextHandle, agentId := a
                conversationId := some msg.conversationId, state := .ready
                lastActivity := t2, initMessage := some msg }, ?_, by simp⟩
      rw [openSession_ok, ← closeSession_sessions]
  | fails e =>
      right
      rw [openSession_err ct st c a cv t1 t2 (.fails e) e rfl]
      simp only
      rw [removeS_eq_filter, closeSession_sessions]
  | timesOut =>
      right
      rw [openSession_err ct st c a cv t1 t2 .timesOut _ rfl]
      simp only
      rw [removeS_eq_filter, closeSession_sessions]

theorem foldl_close_sessions (ct : Nat → Bool) (ids : List String)
    (st : ManagerState) :
    (ids.foldl (fun s id => closeSession ct s id) st).sessions =
      st.sessions.filter (fun p => !ids.contains p.1) := by
  induction ids generalizing st with
  | nil => simp
  | cons id rest ih =>
      rw [List.foldl_cons, ih, closeSession_sessions, List.filter_filter]
      congr 1
      funext p
      by_cases h1 : p.1 = id <;> simp [h1, List.contains_cons]

theorem foldl_close_sweepTimerOn (ct : Nat → Bool) (ids : List String)
    (st : ManagerState) :
    (ids.foldl (fun s id => closeSession ct s id) st).sweepTimerOn =
      st.sweepTimerOn := by
  induction ids generalizing st with
  | nil => rfl
  | cons id rest ih => rw [List.foldl_cons, ih, closeSession_sweepTimerOn]

theorem foldl_close_closedHandles_mono (ct : Nat → Bool) (ids : List String)
    (st : ManagerState) (x : Nat) (hx : x ∈ st.closedHandles) :
    x ∈ (ids.foldl (fun s id => closeSession ct s id) st).closedHandles := by
  induction ids generalizing st with
  | nil => exact hx
  | cons id rest ih =>
      rw [List.foldl_cons]
      exact ih _ (closeSession_closedHandles_mono ct st id x hx)

/-! ### Preservation of the map invariants by every operation -/

theorem nodupKeys_filter (l : List (String × ManagedSession))
    (f : String × ManagedSession → Bool) (h : (l.map Prod.fst).Nodup) :
    ((l.filter f).map Prod.fst).Nodup :=
  List.Nodup.sublist (List.Sublist.map Prod.fst (List.filter_sublist l)) h

theorem noClosed_filter (st : ManagerState) (l : List (String × ManagedSession))
    (f : String × ManagedSession → Bool) (h : NoClosed st)
    (hl : l = st.sessions.filter f) (p : String × ManagedSession)
    (hp : p ∈ l) : p.2.state ≠ SessionState.closed :=
  h p (List.mem_of_mem_filter (hl ▸ hp))

theorem step_nodupKeys {s s' : ManagerState} (hstep : Step s s')
    (h : NodupKeys s) : NodupKeys s' := by
  cases hstep with
  | doOpen ct c a cv t1 t2 init =>
      rcases openSession_sessions_shape ct s c a cv t1 t2 init with ⟨m, hm, _⟩ | hm
      · unfold NodupKeys
        rw [hm]
        exact nodup_keys_setS _ _ _ (nodupKeys_filter _ _ h)
      · unfold NodupKeys
        rw [hm]
        exact nodupKeys_filter _ _ (nodupKeys_filter _ _ h)
  | doSend c now turn =>
      rcases sendAndStream_sessions_shape s c now turn with hm | ⟨m, hm, _⟩
      · unfold NodupKeys
        rw [hm]
        exact h
      · unfold NodupKeys
        rw [hm]
        exact nodup_keys_setS _ _ _ h
  | doAbort ab c =>
      rcases abortSession_sessions_shape ab s c with hm | ⟨m, hm, _⟩
      · unfold NodupKeys
        rw [hm]
        exact h
      · unfold NodupKeys
        rw [hm]
        exact nodup_keys_setS _ _ _ h
  | doClose ct c =>
      unfold NodupKeys
      rw [closeSession_sessions]
      exact nodupKeys_filter _ _ h
  | doSweep now =>
      unfold NodupKeys
      simp only [sweepIdle]
      exact nodupKeys_filter _ _ h
  | doShutdown ct =>
      unfold NodupKeys
      unfold shutdown
      rw [foldl_close_sessions]
      exact nodupKeys_filter _ _ h

theorem reachable_nodupKeys (st : ManagerState) (h : Reachable st) :
    NodupKeys st := by
  induction h with
  | start idle => simp [NodupKeys, ManagerState.initial]
  | step _ hstep ih => exact step_nodupKeys hstep ih

theorem noClosed_setS (st : ManagerState) (l : List (String × ManagedSession))
    (c : String) (m : ManagedSession) (h : ∀ p ∈ l, p.2.state ≠ SessionState.closed)
    (hm : m.state ≠ SessionState.closed) (p : String × ManagedSession)
    (hp : p ∈ setS l c m) : p.2.state ≠ SessionState.closed := by
  rcases mem_setS l c m p hp with h1 | h1
  · rw [h1]
    exact hm
  · exact h p h1

theorem step_noClosed {s s' : ManagerState} (hstep : Step s s')
    (h : NoClosed s) : NoClosed s' := by
  cases hstep with
  | doOpen ct c a cv t1 t2 init =>
      rcases openSession_sessions_shape ct s c a cv t1 t2 init with ⟨m, hm, hmc⟩ | hm
      · intro p hp
        rw [hm] at hp
        exact noClosed_setS s _ c m
          (fun q hq => h q (List.mem_of_mem_filter hq)) hmc p hp
      · intro p hp
        rw [hm] at hp
        exact h p (List.mem_of_mem_filter (List.mem_of_mem_filter hp))
  | doSend c now turn =>
      rcases sendAndStream_sessions_shape s c now turn with hm | ⟨m, hm, hmc⟩
      · intro p hp
        rw [hm] at hp
        exact h p hp
      · intro p hp
        rw [hm] at hp
        exact noClosed_setS s _ c m h hmc p hp
  | doAbort ab c =>
      rcases abortSession_sessions_shape ab s c with hm | ⟨m, hm, hmc⟩
      · intro p hp
        rw [hm] at hp
        exact h p hp
      · intro p hp
        rw [hm] at hp
        exact noClosed_setS s _ c m h hmc p hp
  | doClose ct c =>
      intro p hp
      rw [closeSession_sessions] at hp
      exact h p (List.mem_of_mem_filter hp)
  | doSweep now =>
      intro p hp
      simp only [sweepIdle] at hp
      exact h p (List.mem_of_mem_filter hp)
  | doShutdown ct =>
      intro p hp
      unfold shutdown at hp
      rw [foldl_close_sessions] at hp
      exact h p (List.mem_of_mem_filter hp)

theorem reachable_noClosed (st : ManagerState) (h : Reachable st) :
    NoClosed st := by
  induction h with
  | start idle => intro p hp; cases hp
  | step _ hstep ih => exact step_noClosed hstep ih

/-! ### C2 -/

theorem lookupS_filter_ne_none (l : List (String × ManagedSession)) (c : String) :
    lookupS (l.filter (fun p => p.1 != c)) c = none := by
  rw [lookupS_eq_none_iff]
  intro p hp
  simpa [bne_iff_ne] using (List.mem_filter.mp hp).2

theorem countKey_append_one (l : List (String × ManagedSession)) (c : String)
    (v : ManagedSession) : countKey (l ++ [(c, v)]) c = countKey l c + 1 := by
  simp [countKey, List.filter_append]

theorem openSession_ok_facts (ct : Nat → Bool) (st : ManagerState) (c a : String)
    (cv : Option String) (t1 t2 : Nat) (msg : InitMsg) :
    countKey (openSession ct st c a cv t1 t2 (.succeeds msg)).st.sessions c = 1 ∧
    lookupS (openSession ct st c a cv t1 t2 (.succeeds msg)).st.sessions c =
      some (openSession ct st c a cv t1 t2 (.succeeds msg)).record ∧
    (openSession ct st c a cv t1 t2 (.succeeds msg)).record.handleId =
      st.nextHandle ∧
    (openSession ct st c a cv t1 t2 (.succeeds msg)).st.nextHandle =
      st.nextHandle + 1 ∧
    ∀ r, lookupS st.sessions c = some r →
      r.handleId ∈ (openSession ct st c a cv t1 t2 (.succeeds msg)).st.closedHandles := by
  rw [openSession_ok]
  refine ⟨?_, lookupS_setS_self _ _ _, by simp [closeSession_nextHandle],
    by simp [closeSession_nextHandle], fun r hl => ?_⟩
  · simp only
    rw [closeSession_sessions]
    have hnone := lookupS_filter_ne_none st.sessions c
    rw [setS_eq_append_of_none _ _ _ hnone, countKey_append_one,
      countKey_eq_zero_of_none _ _ hnone]
  · simpa using closeSession_closes ct st c r hl

/-- C2: in every reachable manager state there is at most one record per
connection id, and two consecutive successful `open` calls for the same
connection leave exactly one record for it — bound to the handle created by
the second call — while the first call's handle has been closed. -/
theorem open_replaces_single_record :
    (∀ st, Reachable st → ∀ c, countKey st.sessions c ≤ 1) ∧
    ∀ (ct : Nat → Bool) (st : ManagerState) (c a1 a2 : String)
      (cv1 cv2 : Option String) (t1 t2 t3 t4 : Nat) (m1 m2 : InitMsg),
      countKey (openSession ct (openSession ct st c a1 cv1 t1 t2 (.succeeds m1)).st
          c a2 cv2 t3 t4 (.succeeds m2)).st.sessions c = 1 ∧
      lookupS (openSession ct (openSession ct st c a1 cv1 t1 t2 (.succeeds m1)).st
          c a2 cv2 t3 t4 (.succeeds m2)).st.sessions c =
        some (openSession ct (openSession ct st c a1 cv1 t1 t2 (.succeeds m1)).st
          c a2 cv2 t3 t4 (.succeeds m2)).record ∧
      (openSession ct (openSession ct st c a1 cv1 t1 t2 (.succeeds m1)).st
          c a2 cv2 t3 t4 (.succeeds m2)).record.handleId =
        (openSession ct st c a1 cv1 t1 t2 (.succeeds m1)).record.handleId + 1 ∧
      (openSession ct st c a1 cv1 t1 t2 (.succeeds m1)).record.handleId ∈
        (openSession ct (openSession ct st c a1 cv1 t1 t2 (.succeeds m1)).st
          c a2 cv2 t3 t4 (.succeeds m2)).st.closedHandles := by
  constructor
  · intro st hr c
    exact countKey_le_one_of_nodup _ _ (reachable_nodupKeys st hr)
  · intro ct st c a1 a2 cv1 cv2 t1 t2 t3 t4 m1 m2
    obtain ⟨_, hlook1, hh1, hnext1, _⟩ :=
      openSession_ok_facts ct st c a1 cv1 t1 t2 m1
    obtain ⟨hcount2, hlook2, hh2, _, hclosed2⟩ :=
      openSession_ok_facts ct (openSession ct st c a1 cv1 t1 t2 (.succeeds m1)).st
        c a2 cv2 t3 t4 m2
    refine ⟨hcount2, hlook2, ?_, ?_⟩
    · rw [hh2, hnext1, hh1]
    · exact hclosed2 _ hlook1

/-! ### C5 -/

/-- C5: when `initialize` fails or times out, `open` leaves the local record
in state `error`, best-effort closes the fresh handle, removes the record
from the map (`has` is `false`), raises the failure, and the gateway turns it
into a `SESSION_INIT_FAILED` error frame. -/
theorem open_init_failure (ct : Nat → Bool) (st : ManagerState) (c a : String)
    (cv : Option String) (t1 t2 : Nat) (init : InitBehavior)
    (hfail : ∀ msg, init ≠ InitBehavior.succeeds msg) :
    (openSession ct st c a cv t1 t2 init).record.state = .error ∧
    (openSession ct st c a cv t1 t2 init).record.handleId ∈
      (openSession ct st c a cv t1 t2 init).st.closedHandles ∧
    hasSession (openSession ct st c a cv t1 t2 init).st c = false ∧
    (∃ e, (openSession ct st c a cv t1 t2 init).result = .error e) ∧
    (a ≠ "" → ∃ emsg,
      handleSessionStart ct st c a cv t1 t2 init =
        { frames := [sendError "SESSION_INIT_FAILED" emsg none]
          st := (openSession ct st c a cv t1 t2 init).st
          sendCalls := 0, connectionClosed := false }) := by
  obtain ⟨e, he⟩ : ∃ e, withTimeout INIT_TIMEOUT_MS init = .error e := by
    cases init with
    | succeeds msg => exact absurd rfl (hfail msg)
    | fails e2 => exact ⟨e2, rfl⟩
    | timesOut => exact ⟨_, rfl⟩
  rw [openSession_err ct st c a cv t1 t2 init e he]
  refine ⟨rfl, ?_, ?_, ⟨e, rfl⟩, fun ha => ?_⟩
  · simp
  · simp [hasSession, lookupS_removeS_self]
  · refine ⟨"Error: " ++ e, ?_⟩
    rw [handleSessionStart, if_neg ha]
    rw [openSession_err ct st c a cv t1 t2 init e he]

/-! ### C8 -/

/-- C8: a `message` frame with no session record yields a `NO_SESSION` error
without contacting the backend; one arriving while the session is `busy`
yields `SESSION_BUSY`; both leave the manager untouched and the connection
open, and a non-empty caller-supplied `request_id` is echoed in the error
frame. -/
theorem message_no_session_or_busy (st : ManagerState) (c content : String)
    (rid : Option String) (now : Nat) (turn : TurnBehavior) :
    (hasSession st c = false →
      handleClientMessage st c content rid now turn =
        { frames := [sendError "NO_SESSION" "Send session_start first" rid]
          st := st, sendCalls := 0, connectionClosed := false }) ∧
    (∀ m, lookupS st.sessions c = some m → m.state = .busy → content ≠ "" →
      handleClientMessage st c content rid now turn =
        { frames := [sendError "SESSION_BUSY" SendErr.sessionBusy.message rid]
          st := st, sendCalls := 0, connectionClosed := false }) ∧
    (∀ code msg r, r ≠ "" → (sendError code msg (some r)).reqId = some r) := by
  refine ⟨fun h => ?_, fun m hm hb hc => ?_, fun code msg r hr => ?_⟩
  · simp [handleClientMessage, h]
  · have hhas : hasSession st c = true := by simp [hasSession, hm]
    simp [handleClientMessage, hhas, hc, sendAndStream, hm, hb]
  · simp [sendError, Frame.reqId, hr]

/-- C8 witness: a fresh connection gets `NO_SESSION`, a busy one gets
`SESSION_BUSY`, both echoing request id `r1`. -/
theorem message_no_session_or_busy_witness :
    handleClientMessage (ManagerState.initial DEFAULT_IDLE_TIMEOUT_MS) "c9" "hi"
        (some "r1") 0 turnOk =
      { frames := [sendError "NO_SESSION" "Send session_start first" (some "r1")]
        st := ManagerState.initial DEFAULT_IDLE_TIMEOUT_MS
        sendCalls := 0, connectionClosed := false } ∧
    handleClientMessage stBusy "c1" "hi" (some "r1") 0 turnOk =
      { frames := [sendError "SESSION_BUSY" SendErr.sessionBusy.message (some "r1")]
        st := stBusy, sendCalls := 0, connectionClosed := false } :=
  ⟨(message_no_session_or_busy (ManagerState.initial DEFAULT_IDLE_TIMEOUT_MS) "c9"
      "hi" (some "r1") 0 turnOk).1 (by decide),
   (message_no_session_or_busy stBusy "c1" "hi" (some "r1") 0 turnOk).2.1 mBusy
      (by decide) (by decide) (by decide)⟩

/-! ### C9 -/

theorem foldl_close_handles (ct : Nat → Bool) (ids : List String)
    (st : ManagerState) (c : String) (m : ManagedSession)
    (hmem : (c, m) ∈ st.sessions) (hnodup : (st.sessions.map Prod.fst).Nodup)
    (hc : c ∈ ids) :
    m.handleId ∈ (ids.foldl (fun s id => closeSession ct s id) st).closedHandles := by
  induction ids generalizing st with
  | nil => cases hc
  | cons id rest ih =>
      rw [List.foldl_cons]
      by_cases hcid : c = id
      · subst hcid
        have hl : lookupS st.sessions c = some m :=
          lookupS_of_mem_nodup _ _ _ hmem hnodup
        exact foldl_close_closedHandles_mono ct rest _ _
          (closeSession_closes ct st c m hl)
      · have hmem2 : (c, m) ∈ (closeSession ct st id).sessions := by
          rw [closeSession_sessions]
          exact List.mem_filter.mpr ⟨hmem, by simpa [bne_iff_ne] using hcid⟩
        have hnodup2 : ((closeSession ct st id).sessions.map Prod.fst).Nodup := by
          rw [closeSession_sessions]
          exact nodupKeys_filter _ _ hnodup
        have hc2 : c ∈ rest := by
          rcases List.mem_cons.mp hc with h | h
          · exact absurd h hcid
          · exact h
        exact ih _ hmem2 hnodup2 hc2

/-- C9: `shutdown` stops the sweep timer and closes every outstanding
record: afterwards the session count is 0 and every previously live handle
has had `close` invoked on it, whatever subset of the handles' own close
calls throw (each failure is swallowed). -/
theorem shutdown_spec (ct : Nat → Bool) (st : ManagerState)
    (hnodup : NodupKeys st) :
    (shutdown ct st).sessions = [] ∧
    managerSize (shutdown ct st) = 0 ∧
    (shutdown ct st).sweepTimerOn = false ∧
    ∀ p ∈ st.sessions, p.2.handleId ∈ (shutdown ct st).closedHandles := by
  have hsess : (shutdown ct st).sessions = [] := by
    unfold shutdown
    rw [foldl_close_sessions]
    rw [List.filter_eq_nil_iff]
    intro p hp
    simp only [Bool.not_eq_true, Bool.not_eq_false']
    rw [List.contains_iff_exists_mem_beq]
    exact ⟨p.1, List.mem_map_of_mem Prod.fst hp, by simp⟩
  refine ⟨hsess, by simp [managerSize, hsess], ?_, ?_⟩
  · unfold shutdown
    rw [foldl_close_sweepTimerOn]
  · intro p hp
    unfold shutdown
    exact foldl_close_handles ct _ _ p.1 p.2
      (by simpa using hp) hnodup
      (List.mem_map_of_mem Prod.fst hp)

/-- C9 witness: shutting down a manager with two live sessions — the first
handle's close throws — still empties the map, stops the timer, and closes
both handles. -/
theorem shutdown_spec_witness :
    (shutdown (fun h => h == 0) stTwo).sessions = [] ∧
    (shutdown (fun h => h == 0) stTwo).sweepTimerOn = false ∧
    mBusy.handleId ∈ (shutdown (fun h => h == 0) stTwo).closedHandles ∧
    mReady.handleId ∈ (shutdown (fun h => h == 0) stTwo).closedHandles :=
  ⟨(shutdown_spec (fun h => h == 0) stTwo (by unfold NodupKeys; decide)).1,
   (shutdown_spec (fun h => h == 0) stTwo (by unfold NodupKeys; decide)).2.2.1,
   (shutdown_spec (fun h => h == 0) stTwo
     (by unfold NodupKeys; decide)).2.2.2 ("c1", mBusy) (by decide),
   (shutdown_spec (fun h => h == 0) stTwo
     (by unfold NodupKeys; decide)).2.2.2 ("c2", mReady) (by decide)⟩

/-! ### C10 -/

/-- C10: the terminal `closed` state is unobservable: in every reachable
manager state, `getInfo` never reports a session in state `closed`, because
`close` marks the record and removes it from the map in one atomic step. -/
theorem getInfo_never_closed (st : ManagerState) (hr : Reachable st)
    (c a : String) (cv : Option String) (s : SessionState)
    (hinfo : getInfo st c = some (a, cv, s)) : s ≠ SessionState.closed := by
  have hnc := reachable_noClosed st hr
  unfold getInfo at hinfo
  cases hl : lookupS st.sessions c with
  | none => rw [hl] at hinfo; cases hinfo
  | some m =>
      rw [hl] at hinfo
      have hm := hnc (c, m) (lookupS_mem _ _ _ hl)
      simp only [Option.some.injEq, Prod.mk.injEq] at hinfo
      exact hinfo.2.2 ▸ hm

/-- C10 witness: after an `open` on a fresh manager the reported state is
`ready`, and the theorem applies to show it is not `closed`. -/
theorem getInfo_never_closed_witness :
    getInfo stOpened "c1" = some ("a1", some "v1", .ready) ∧
    SessionState.ready ≠ SessionState.closed :=
  ⟨by decide,
   getInfo_never_closed stOpened
    (Reachable.step (Reachable.start 300000)
      (Step.doOpen (ManagerState.initial 300000) (fun _ => false) "c1" "a1" none 0 0
        (.succeeds { agentId := "a1", conversationId := "v1", sessionId := "s1" })))
    "c1" "a1" (some "v1") .ready (by decide)⟩

/-- C2 witness: the state reached by one `open` on a fresh manager has at
most one record for its connection id. -/
theorem open_replaces_single_record_witness :
    countKey stOpened.sessions "c1" ≤ 1 :=
  open_replaces_single_record.1 stOpened
    (Reachable.step (Reachable.start 300000)
      (Step.doOpen (ManagerState.initial 300000) (fun _ => false) "c1" "a1" none 0 0
        (.succeeds { agentId := "a1", conversationId := "v1", sessionId := "s1" })))
    "c1"

/-- C5 witness: a timed-out `initialize` on a fresh manager leaves the local
record in `error`, removes it from the map, and the gateway reports
`SESSION_INIT_FAILED`. -/
theorem open_init_failure_witness :
    (openSession (fun _ => false) (ManagerState.initial 300000) "c1" "a1" none 0 0
      InitBehavior.timesOut).record.state = .error ∧
    hasSession (openSession (fun _ => false) (ManagerState.initial 300000) "c1" "a1"
      none 0 0 InitBehavior.timesOut).st "c1" = false ∧
    (∃ emsg,
      handleSessionStart (fun _ => false) (ManagerState.initial 300000) "c1" "a1"
          none 0 0 InitBehavior.timesOut =
        { frames := [sendError "SESSION_INIT_FAILED" emsg none]
          st := (openSession (fun _ => false) (ManagerState.initial 300000) "c1" "a1"
            none 0 0 InitBehavior.timesOut).st
          sendCalls := 0, connectionClosed := false }) :=
  ⟨(open_init_failure (fun _ => false) (ManagerState.initial 300000) "c1" "a1" none 0 0
      InitBehavior.timesOut (fun _ h => InitBehavior.noConfusion h)).1,
   (open_init_failure (fun _ => false) (ManagerState.initial 300000) "c1" "a1" none 0 0
      InitBehavior.timesOut (fun _ h => InitBehavior.noConfusion h)).2.2.1,
   (open_init_failure (fun _ => false) (ManagerState.initial 300000) "c1" "a1" none 0 0
      InitBehavior.timesOut (fun _ h => InitBehavior.noConfusion h)).2.2.2.2
     (by decide)⟩

/-! ### Stream-loop lemmas for C6 and C7 -/

theorem streamLoop_hasResult (m : ManagedSession) (steps : List StreamStep)
    (hres : streamHasResult steps = true) :
    streamLoop m steps =
      (eventsUpToFirstResult (stepsItems steps),
       { m with state := .ready, lastActivity := firstResultTime 0 steps },
       false) := by
  induction steps generalizing m with
  | nil => simp [streamHasResult] at hres
  | cons s rest ih =>
      cases hi : s.item with
      | none => simp [streamHasResult, hi] at hres
      | some msg =>
          by_cases hr : msg.isResult
          · simp [streamLoop, hi, hr, stepsItems, eventsUpToFirstResult,
              firstResultTime]
          · have hres2 : streamHasResult rest = true := by
              simpa [streamHasResult, hi, hr] using hres
            have hrec := ih { m with lastActivity := s.time } hres2
            simp [streamLoop, hi, hr, stepsItems, eventsUpToFirstResult,
              firstResultTime, hrec]

theorem streamLoop_hasThrow (m : ManagedSession) (steps : List StreamStep)
    (hthrow : streamHasThrow steps = true) :
    (streamLoop m steps).2.2 = true ∧
    (streamLoop m steps).2.1.state = .error := by
  induction steps generalizing m with
  | nil => simp [streamHasThrow] at hthrow
  | cons s rest ih =>
      cases hi : s.item with
      | none => simp [streamLoop, hi]
      | some msg =>
          by_cases hr : msg.isResult
          · simp [streamHasThrow, hi, hr] at hthrow
          · have h2 : streamHasThrow rest = true := by
              simpa [streamHasThrow, hi, hr] using hthrow
            have hrec := ih { m with lastActivity := s.time } h2
            simpa [streamLoop, hi, hr] using hrec

theorem upToFirst_decomp (steps : List StreamStep)
    (hres : streamHasResult steps = true) :
    ∃ pre r, eventsUpToFirstResult (stepsItems steps) = pre ++ [r] ∧
      (∀ e ∈ pre, e.isResult = false) ∧ r.isResult = true := by
  induction steps with
  | nil => simp [streamHasResult] at hres
  | cons s rest ih =>
      cases hi : s.item with
      | none => simp [streamHasResult, hi] at hres
      | some msg =>
          by_cases hr : msg.isResult
          · exact ⟨[], msg,
              by simp [stepsItems, hi, eventsUpToFirstResult, hr],
              by simp, hr⟩
          · have hres2 : streamHasResult rest = true := by
              simpa [streamHasResult, hi, hr] using hres
            obtain ⟨pre, r, heq, hpre, hrr⟩ := ih hres2
            refine ⟨msg :: pre, r, ?_, fun e he => ?_, hrr⟩
            · have hitems : stepsItems (s :: rest) = msg :: stepsItems rest := by
                simp [stepsItems, hi]
              rw [hitems]
              simp only [eventsUpToFirstResult]
              rw [if_neg hr, heq]
              rfl
            rcases List.mem_cons.mp he with h | h
            · rw [h]
              simpa using hr
            · exact hpre e h

theorem forward_nonresult_isStream (st : ManagerState) (c : String)
    (e : SDKMessage) (rid : Option String) (h : e.isResult = false) :
    (forwardStreamEvent st c e rid).isStream = true := by
  cases e with
  | result s2 cv d er => simp [SDKMessage.isResult] at h
  | assistant c2 u => simp [forwardStreamEvent, Frame.isStream]
  | toolCall n i u => simp [forwardStreamEvent, Frame.isStream]
  | toolResult c2 i b u => simp [forwardStreamEvent, Frame.isStream]
  | reasoning c2 u => simp [forwardStreamEvent, Frame.isStream]

theorem forward_result_frame (st : ManagerState) (c : String)
    (e : SDKMessage) (rid : Option String) (h : e.isResult = true) :
    (forwardStreamEvent st c e rid).isResultFrame = true ∧
    (forwardStreamEvent st c e rid).reqId = rid := by
  cases e with
  | result s2 cv d er => simp [forwardStreamEvent, Frame.isResultFrame, Frame.reqId]
  | assistant c2 u => simp [SDKMessage.isResult] at h
  | toolCall n i u => simp [SDKMessage.isResult] at h
  | toolResult c2 i b u => simp [SDKMessage.isResult] at h
  | reasoning c2 u => simp [SDKMessage.isResult] at h

theorem isStream_not_resultFrame (f : Frame) (h : f.isStream = true) :
    f.isResultFrame = false := by
  cases f <;> simp_all [Frame.isStream, Frame.isResultFrame]

theorem sendAndStream_ready_ok (st : ManagerState) (c : String) (now : Nat)
    (turn : TurnBehavior) (m : ManagedSession)
    (hm : lookupS st.sessions c = some m) (hready : m.state = .ready)
    (hsend : turn.sendFails = false) (hres : streamHasResult turn.steps = true) :
    sendAndStream st c now turn =
      { yielded := eventsUpToFirstResult (stepsItems turn.steps)
        error := none
        sendCalls := 1
        record := some { m with state := .ready, lastActivity := firstResultTime 0 turn.steps }
        st := { st with sessions := setS st.sessions c { m with state := .ready, lastActivity := firstResultTime 0 turn.steps } } } := by
  have hloop := streamLoop_hasResult { m with state := .busy, lastActivity := now }
    turn.steps hres
  simp [sendAndStream, hm, hready, hsend, hloop]

/-! ### C6 -/

/-- C6: from `ready`, with a backend stream that delivers a terminal
`result` event, `sendAndStream` yields the backend's events verbatim and in
order up to and including the first `result`, tracks the last event's
arrival time in `lastActivity`, and returns the record to `ready`; the
gateway forwards them as zero or more `stream` frames followed by exactly
one `result` frame echoing the request id. -/
theorem sendAndStream_round_trip (st : ManagerState) (c content : String)
    (rid : Option String) (now : Nat) (turn : TurnBehavior) (m : ManagedSession)
    (hm : lookupS st.sessions c = some m) (hready : m.state = .ready)
    (hsend : turn.sendFails = false) (hres : streamHasResult turn.steps = true)
    (hcontent : content ≠ "") :
    (sendAndStream st c now turn).yielded =
      eventsUpToFirstResult (stepsItems turn.steps) ∧
    (sendAndStream st c now turn).error = none ∧
    lookupS (sendAndStream st c now turn).st.sessions c =
      some { m with state := .ready, lastActivity := firstResultTime 0 turn.steps } ∧
    ∃ pre fr,
      (handleClientMessage st c content rid now turn).frames = pre ++ [fr] ∧
      (∀ f ∈ pre, f.isStream = true) ∧
      fr.isResultFrame = true ∧ fr.reqId = rid ∧
      ((handleClientMessage st c content rid now turn).frames.filter
        (fun f => f.isResultFrame)).length = 1 := by
  have hok := sendAndStream_ready_ok st c now turn m hm hready hsend hres
  have hhas : hasSession st c = true := by simp [hasSession, hm]
  refine ⟨by rw [hok], by rw [hok], ?_, ?_⟩
  · rw [hok]
    exact lookupS_setS_self _ _ _
  · have hframes : (handleClientMessage st c content rid now turn).frames =
        (eventsUpToFirstResult (stepsItems turn.steps)).map
          (fun e => forwardStreamEvent (sendAndStream st c now turn).st c e rid) := by
      rw [handleClientMessage, if_neg (by simp [hhas]), if_neg hcontent]
      simp only [hok]
    obtain ⟨pre0, r, heq, hpre0, hrr⟩ := upToFirst_decomp turn.steps hres
    rw [heq, List.map_append, List.map_singleton] at hframes
    refine ⟨pre0.map (fun e =>
        forwardStreamEvent (sendAndStream st c now turn).st c e rid),
      forwardStreamEvent (sendAndStream st c now turn).st c r rid,
      hframes, ?_, (forward_result_frame _ _ _ _ hrr).1,
      (forward_result_frame _ _ _ _ hrr).2, ?_⟩
    · intro f hf
      obtain ⟨e, he, hfe⟩ := List.mem_map.mp hf
      rw [← hfe]
      exact forward_nonresult_isStream _ _ _ _ (hpre0 e he)
    · rw [hframes, List.filter_append]
      have h1 : (pre0.map (fun e =>
          forwardStreamEvent (sendAndStream st c now turn).st c e rid)).filter
            (fun f => f.isResultFrame) = [] := by
        rw [List.filter_eq_nil_iff]
        intro f hf
        obtain ⟨e, he, hfe⟩ := List.mem_map.mp hf
        rw [← hfe]
        simp [isStream_not_resultFrame _
          (forward_nonresult_isStream _ _ _ _ (hpre0 e he))]
      rw [h1]
      simp [(forward_result_frame (sendAndStream st c now turn).st c r rid hrr).1]

/-- C6 witness: a concrete `ready` session streaming one assistant event and
one result yields exactly those events and one result frame echoing `r1`. -/
theorem sendAndStream_round_trip_witness :
    (sendAndStream stReady "c2" 3 turnOk).yielded =
      eventsUpToFirstResult (stepsItems turnOk.steps) ∧
    (sendAndStream stReady "c2" 3 turnOk).error = none ∧
    lookupS (sendAndStream stReady "c2" 3 turnOk).st.sessions "c2" =
      some { mReady with state := .ready, lastActivity := firstResultTime 0 turnOk.steps } ∧
    ∃ pre fr,
      (handleClientMessage stReady "c2" "hi" (some "r1") 3 turnOk).frames =
        pre ++ [fr] ∧
      (∀ f ∈ pre, f.isStream = true) ∧
      fr.isResultFrame = true ∧ fr.reqId = some "r1" ∧
      ((handleClientMessage stReady "c2" "hi" (some "r1") 3 turnOk).frames.filter
        (fun f => f.isResultFrame)).length = 1 :=
  sendAndStream_round_trip stReady "c2" "hi" (some "r1") 3 turnOk mReady
    (by decide) (by decide) (by decide) (by decide) (by decide)

/-! ### C7 -/

theorem sendAndStream_ready_err (st : ManagerState) (c : String) (now : Nat)
    (turn : TurnBehavior) (m : ManagedSession)
    (hm : lookupS st.sessions c = some m) (hready : m.state = .ready)
    (herr : turn.sendFails = true ∨ streamHasThrow turn.steps = true) :
    (sendAndStream st c now turn).error = some .backendErr ∧
    (sendAndStream st c now turn).sendCalls = 1 ∧
    ∃ r, lookupS (sendAndStream st c now turn).st.sessions c = some r ∧
      r.state = .error := by
  by_cases hs : turn.sendFails
  · refine ⟨?_, ?_, ⟨{ m with state := .error, lastActivity := now }, ?_, rfl⟩⟩ <;>
      simp [sendAndStream, hm, hready, hs, lookupS_setS_self]
  · rcases herr with h | hth
    · exact absurd h hs
    · rcases hsl : streamLoop { m with state := .busy, lastActivity := now }
        turn.steps with ⟨ys, mf, er⟩
      have hthrow := streamLoop_hasThrow { m with state := .busy, lastActivity := now }
        turn.steps hth
      rw [hsl] at hthrow
      have h1 : er = true := hthrow.1
      have h2 : mf.state = SessionState.error := hthrow.2
      refine ⟨?_, ?_, ⟨mf, ?_, h2⟩⟩ <;>
        simp [sendAndStream, hm, hready, hs, hsl, h1, lookupS_setS_self]

/-- C7: an error thrown by the backend's `send` or mid-stream moves the
record to state `error` while leaving it in the map, propagates the failure
(one send attempt, no retry), and the gateway surfaces a `STREAM_ERROR`
frame after the events already forwarded. -/
theorem sendAndStream_error_to_error_state (st : ManagerState) (c content : String)
    (rid : Option String) (now : Nat) (turn : TurnBehavior) (m : ManagedSession)
    (hm : lookupS st.sessions c = some m) (hready : m.state = .ready)
    (herr : turn.sendFails = true ∨ streamHasThrow turn.steps = true)
    (hcontent : content ≠ "") :
    (sendAndStream st c now turn).error = some .backendErr ∧
    (sendAndStream st c now turn).sendCalls = 1 ∧
    (∃ r, lookupS (sendAndStream st c now turn).st.sessions c = some r ∧
      r.state = .error) ∧
    ∃ pre, (handleClientMessage st c content rid now turn).frames =
      pre ++ [sendError "STREAM_ERROR" SendErr.backendErr.message rid] := by
  obtain ⟨he, hsc, hrec⟩ := sendAndStream_ready_err st c now turn m hm hready herr
  have hhas : hasSession st c = true := by simp [hasSession, hm]
  refine ⟨he, hsc, hrec, ?_⟩
  refine ⟨(sendAndStream st c now turn).yielded.map
    (fun e => forwardStreamEvent (sendAndStream st c now turn).st c e rid), ?_⟩
  rw [handleClientMessage, if_neg (by simp [hhas]), if_neg hcontent]
  simp only [he]

/-- C7 witness: a `ready` session whose stream throws after one event ends
in state `error`, still in the map, and the client gets a `STREAM_ERROR`
frame echoing `r1`. -/
theorem sendAndStream_error_witness :
    (sendAndStream stReady "c2" 3 turnThrows).error = some .backendErr ∧
    (∃ r, lookupS (sendAndStream stReady "c2" 3 turnThrows).st.sessions "c2" =
      some r ∧ r.state = .error) ∧
    ∃ pre, (handleClientMessage stReady "c2" "hi" (some "r1") 3 turnThrows).frames =
      pre ++ [sendError "STREAM_ERROR" SendErr.backendErr.message (some "r1")] :=
  ⟨(sendAndStream_error_to_error_state stReady "c2" "hi" (some "r1") 3 turnThrows
      mReady (by decide) (by decide) (Or.inr (by decide)) (by decide)).1,
   (sendAndStream_error_to_error_state stReady "c2" "hi" (some "r1") 3 turnThrows
      mReady (by decide) (by decide) (Or.inr (by decide)) (by decide)).2.2.1,
   (sendAndStream_error_to_error_state stReady "c2" "hi" (some "r1") 3 turnThrows
      mReady (by decide) (by decide) (Or.inr (by decide)) (by decide)).2.2.2⟩

end Lettabot
